import Mathlib

/-!
Shallow embedding of `managers/process_memory_manager.py` (class `Process`)
from the Metin2FishBotv2 repository, together with proofs about its
pointer-chain memory reads, process discovery, bulk process termination,
and the focus/restore state machine.

External OS facilities (ReadProcessMemory, EnumProcesses, FindWindow,
GetForegroundWindow, AttachThreadInput, SetForegroundWindow,
psutil process iteration, keypress helper) are modelled as explicit
environment parameters; fallible OS calls are given explicit outcomes and
the embedded functions return the sequence of OS actions they perform so
that "performs no X" properties can be stated.
-/

namespace FishBot

/-! ### Offsets: Python ints or hexadecimal strings (`read_memory`, lines 59-62) -/

/-- Numeric value of one hexadecimal digit character, if it is one. -/
def hexDigitVal (c : Char) : Option Nat :=
  if '0' ≤ c ∧ c ≤ '9' then some (c.toNat - 48)
  else if 'a' ≤ c ∧ c ≤ 'f' then some (c.toNat - 87)
  else if 'A' ≤ c ∧ c ≤ 'F' then some (c.toNat - 55)
  else none

/-- Accumulating parse of a list of hexadecimal digit characters. -/
def parseHexDigits : List Char → Nat → Option Nat
  | [], acc => some acc
  | c :: rest, acc =>
    match hexDigitVal c with
    | some d => parseHexDigits rest (16 * acc + d)
    | none => none

/-- Embedding of Python `int(s, 16)` as used by `read_memory`: an optional
sign, an optional `0x`/`0X` prefix, then a nonempty run of hex digits;
any other shape raises (modelled as `none`). -/
def pyIntHex (s : String) : Option Int :=
  let cs := s.toList
  let signAndRest : Int × List Char :=
    match cs with
    | '-' :: r => (-1, r)
    | '+' :: r => (1, r)
    | r => (1, r)
  let body : List Char :=
    match signAndRest.2 with
    | '0' :: 'x' :: r => r
    | '0' :: 'X' :: r => r
    | r => r
  match body with
  | [] => none
  | _ => (parseHexDigits body 0).map (fun n => signAndRest.1 * (n : Int))

/-- An element of an offset chain: a Python `int`, or a `str` that
`read_memory` converts with `int(offset, 16)`. -/
inductive Offset where
  | int (n : Int)
  | str (s : String)
deriving DecidableEq

/-- The conversion `read_memory` applies to each chain element:
`if isinstance(offset, str): offset = int(offset, 16)`. -/
def Offset.normalize : Offset → Option Int
  | .int n => some n
  | .str s => pyIntHex s

/-! ### Memory environment and `Process.read_memory` (lines 45-79) -/

/-- The target process's readable memory, one read function per buffer
width chosen by the `byte` flag (`c_ubyte` vs `c_uint`).  `none` models a
failing `ReadProcessMemory` call (invalid handle / unmapped address), in
which case the ctypes buffer is left unchanged by the call. -/
structure MemEnv where
  readByte : Int → Option Nat
  readUInt : Int → Option Nat

/-- The read function selected by `read_memory`'s `byte` flag. -/
def MemEnv.readFn (env : MemEnv) (byte : Bool) : Int → Option Nat :=
  if byte then env.readByte else env.readUInt

/-- The loop body of `read_memory` over a (nonempty) offset chain.
State: `addr` is `current_address`, `buf` is the ctypes buffer
`data.value` (stale on a failed read, initially zero).  Returns the final
`(current_address, data.value)` pair plus the list of addresses passed to
`ReadProcessMemory`, in order; `none` only when a string offset fails to
parse (Python raises `ValueError`). -/
def readChain (rd : Int → Option Nat) : List Offset → Int → Nat → Option (Int × Nat × List Int)
  | [], addr, buf => some (addr, buf, [])
  | o :: rest, addr, buf =>
    match o.normalize with
    | none => none
    | some off =>
      let buf' := (rd addr).getD buf
      match readChain rd rest ((buf' : Int) + off) buf' with
      | none => none
      | some (a, v, tr) => some (a, v, addr :: tr)

/-- Embedding of `Process.read_memory(address, offsets, byte)`.  Python's
`if offsets:` treats both `None` and the empty list as falsy, so both take
the single-read branch.  Result: `(current_address, data.value, addresses
read)`. -/
def read_memory (env : MemEnv) (address : Int) (offsets : Option (List Offset))
    (byte : Bool) : Option (Int × Nat × List Int) :=
  let rd := env.readFn byte
  match offsets with
  | some (o :: os) => readChain rd (o :: os) address 0
  | _ => some (address, (rd address).getD 0, [address])

/-- The spec's resolution semantics for a nonempty offset chain: at each
step, read an unsigned value at the current address, then set the next
current address to (value read) + (this step's offset); the result pair is
(the last computed current address, the value read in the final step), and
the middle list records the addresses read, left to right. -/
inductive Resolves (rd : Int → Nat) : Int → List Int → List Int → Int × Nat → Prop
  | last (addr o : Int) :
      Resolves rd addr [o] [addr] ((rd addr : Int) + o, rd addr)
  | step (addr o : Int) (rest tr : List Int) (r : Int × Nat) :
      Resolves rd ((rd addr : Int) + o) rest tr r →
      Resolves rd addr (o :: rest) (addr :: tr) r

theorem Resolves.length_eq {rd : Int → Nat} {addr : Int} {offs tr : List Int}
    {r : Int × Nat} (h : Resolves rd addr offs tr r) : tr.length = offs.length := by
  induction h with
  | last addr o => rfl
  | step addr o rest tr r _ ih => simpa using ih

/-- Elementwise normalization of a whole chain; `none` as soon as one
string offset fails to parse. -/
def normalizeChain : List Offset → Option (List Int)
  | [] => some []
  | o :: rest =>
    match o.normalize, normalizeChain rest with
    | some n, some ns => some (n :: ns)
    | _, _ => none

theorem normalizeChain_length : ∀ {os : List Offset} {offs : List Int},
    normalizeChain os = some offs → offs.length = os.length := by
  intro os
  induction os with
  | nil => intro offs h; simp [normalizeChain] at h; simp [← h]
  | cons o rest ih =>
    intro offs h
    simp only [normalizeChain] at h
    cases hn : o.normalize with
    | none => rw [hn] at h; simp at h
    | some n =>
      rw [hn] at h
      cases hr : normalizeChain rest with
      | none => rw [hr] at h; simp at h
      | some ns =>
        rw [hr] at h
        simp at h
        simp [← h, ih hr]

theorem readChain_cons (rd : Int → Option Nat) (o : Offset) (rest : List Offset)
    (addr : Int) (buf : Nat) :
    readChain rd (o :: rest) addr buf =
      match o.normalize with
      | none => none
      | some off =>
        match readChain rd rest ((((rd addr).getD buf : Nat) : Int) + off) ((rd addr).getD buf) with
        | none => none
        | some (a, v, tr) => some (a, v, addr :: tr) := rfl

theorem readChain_resolves (rd : Int → Option Nat) (f : Int → Nat)
    (hrd : ∀ a, rd a = some (f a)) :
    ∀ (os : List Offset) (offs : List Int), normalizeChain os = some offs →
      os ≠ [] → ∀ (addr : Int) (buf : Nat),
      ∃ tr r, readChain rd os addr buf = some (r.1, r.2, tr) ∧ Resolves f addr offs tr r := by
  intro os
  induction os with
  | nil => intro offs _ hne; exact absurd rfl hne
  | cons o rest ih =>
    intro offs h _ addr buf
    simp only [normalizeChain] at h
    cases hn : o.normalize with
    | none => rw [hn] at h; simp at h
    | some off =>
      rw [hn] at h
      cases hr : normalizeChain rest with
      | none => rw [hr] at h; simp at h
      | some ns =>
        rw [hr] at h
        simp at h
        subst h
        cases rest with
        | nil =>
          simp only [normalizeChain] at hr
          injection hr with hr
          subst hr
          refine ⟨[addr], ((f addr : Int) + off, f addr), ?_, Resolves.last addr off⟩
          rw [readChain_cons, hn]
          simp [hrd addr, readChain]
        | cons o2 rest2 =>
          obtain ⟨tr, r, hrc, hres⟩ :=
            ih ns hr (List.cons_ne_nil o2 rest2) ((f addr : Int) + off) (f addr)
          refine ⟨addr :: tr, r, ?_, Resolves.step addr off ns tr r hres⟩
          rw [readChain_cons, hn]
          simp only [hrd addr, Option.getD_some]
          rw [hrc]

theorem read_memory_of_ne_nil (env : MemEnv) (byte : Bool) (address : Int)
    {os : List Offset} (hne : os ≠ []) :
    read_memory env address (some os) byte = readChain (env.readFn byte) os address 0 := by
  cases os with
  | nil => exact absurd rfl hne
  | cons o rest => rfl

theorem readChain_congr (rd : Int → Option Nat) :
    ∀ (os1 os2 : List Offset), os1.map Offset.normalize = os2.map Offset.normalize →
      ∀ (addr : Int) (buf : Nat), readChain rd os1 addr buf = readChain rd os2 addr buf := by
  intro os1
  induction os1 with
  | nil =>
    intro os2 h addr buf
    cases os2 with
    | nil => rfl
    | cons o2 r2 => simp at h
  | cons o1 r1 ih =>
    intro os2 h addr buf
    cases os2 with
    | nil => simp at h
    | cons o2 r2 =>
      simp at h
      obtain ⟨hh, ht⟩ := h
      rw [readChain_cons, readChain_cons, hh]
      cases o2.normalize with
      | none => rfl
      | some off =>
        dsimp only
        rw [ih r2 ht]

/-! ### Process discovery: `Process.get_by_name` (lines 195-227) -/

/-- A loaded module of a scanned process: base address and file path as
returned by `GetModuleFileNameEx`. -/
structure ModuleInfo where
  baseAddress : Int
  fileName : String
deriving DecidableEq

/-- One entry of `win32process.EnumProcesses()`: its id, whether
`OpenProcess` with query and read rights succeeds on it, and its loaded
module list. -/
structure ProcEntry where
  pid : Int
  openable : Bool
  modules : List ModuleInfo
deriving DecidableEq

/-- The identity object `get_by_name` constructs (the `Process.__init__`
fields that discovery fills in). -/
structure ProcessIdent where
  process_id : Int
  process_name : String
  window_name : String
  base_address : Int
deriving DecidableEq

/-- Embedding of Python `str.casefold` (lower-casing each character). -/
def caseFold (s : String) : String := String.mk (s.data.map Char.toLower)

/-- Whether the first list is an initial segment of the second. -/
def isSubListAt : List Char → List Char → Bool
  | [], _ => true
  | _ :: _, [] => false
  | c :: cs, h :: hs => c == h && isSubListAt cs hs

/-- Whether the first list occurs contiguously anywhere in the second. -/
def hasSubList (needle : List Char) : List Char → Bool
  | [] => needle.isEmpty
  | h :: hs => isSubListAt needle (h :: hs) || hasSubList needle hs

/-- Python `needle in hay` on strings: substring containment. -/
def strContains (hay needle : String) : Bool :=
  hasSubList needle.toList hay.toList

/-- The module-path test of `get_by_name`:
`process_name.casefold() in current_name.casefold()`. -/
def moduleMatches (process_name : String) (m : ModuleInfo) : Bool :=
  strContains (caseFold m.fileName) (caseFold process_name)

/-- The inner loop of `get_by_name` over `EnumProcessModules`: the first
module whose file path matches, if any. -/
def findModule (process_name : String) : List ModuleInfo → Option ModuleInfo
  | [] => none
  | m :: rest =>
    if moduleMatches process_name m then some m else findModule process_name rest

/-- Embedding of `Process.get_by_name`: walk the process enumeration in
order, skip the sentinel id `-1`, skip processes whose `OpenProcess`
raises, return the identity built from the first matching module of the
first matching process; after the whole list is exhausted, raise an
exception whose message carries the searched name. -/
def get_by_name (process_name window_name : String) :
    List ProcEntry → Except String ProcessIdent
  | [] => .error (process_name ++ " could not be found.")
  | p :: rest =>
    if p.pid = -1 then get_by_name process_name window_name rest
    else if p.openable then
      match findModule process_name p.modules with
      | some m => .ok ⟨p.pid, process_name, window_name, m.baseAddress⟩
      | none => get_by_name process_name window_name rest
    else get_by_name process_name window_name rest

/-- All (process id, module) pairs `get_by_name` inspects, in enumeration
order over openable, non-sentinel processes and their modules. -/
def candidates (procs : List ProcEntry) : List (Int × ModuleInfo) :=
  (procs.filter fun p => if p.pid = -1 then false else p.openable).flatMap
    (fun p => p.modules.map (fun m => (p.pid, m)))

theorem findModule_eq_find? (process_name : String) :
    ∀ ms : List ModuleInfo,
      findModule process_name ms = ms.find? (moduleMatches process_name) := by
  intro ms
  induction ms with
  | nil => rfl
  | cons m rest ih =>
    simp only [findModule, List.find?_cons]
    cases hm : moduleMatches process_name m with
    | true => simp [hm]
    | false => simp [hm, ih]

/-! ### Bulk termination: `Process.kill_by_name` (lines 124-136) -/

/-- The outcome of `proc.kill()` on one running process: success, the two
`psutil` exception types the code catches, or any other exception. -/
inductive KillOutcome where
  | ok
  | accessDenied
  | noSuchProcess
  | other (e : Nat)
deriving DecidableEq

/-- One process yielded by `psutil.process_iter()`, with the outcome its
`kill()` call would have. -/
structure RunningProc where
  name : String
  outcome : KillOutcome
deriving DecidableEq

/-- The membership test `proc.name().casefold() in names` (against the
already-casefolded name list). -/
def killMatches (folded : List String) (p : RunningProc) : Bool :=
  folded.contains (caseFold p.name)

/-- The iteration of `kill_by_name` over the running processes: returns
the names of the processes whose `kill()` was attempted, in order, and
`some e` when an uncaught exception `e` aborted the loop (`AccessDenied`
and `NoSuchProcess` are caught and swallowed). -/
def kill_by_name_go (folded : List String) : List RunningProc → List String × Option Nat
  | [] => ([], none)
  | p :: rest =>
    if killMatches folded p then
      match p.outcome with
      | .other e => ([p.name], some e)
      | _ =>
        let r := kill_by_name_go folded rest
        (p.name :: r.1, r.2)
    else kill_by_name_go folded rest

/-- Embedding of `Process.kill_by_name(names)`: casefold the requested
names once, then attempt every running process whose casefolded name is in
the list. -/
def kill_by_name (names : List String) (procs : List RunningProc) :
    List String × Option Nat :=
  kill_by_name_go (names.map caseFold) procs

/-! ### Focus state machine: `Process.focus` (lines 81-109) and
`Process.focus_back_to_last_window` (lines 111-122).

The two window-related `functools.cached_property` fields
(`window_handle`, `thread_id`) are modelled as explicit option-valued
caches; `delattr(self, 'window_handle')` clears the first.  `FindWindow`
may answer differently each time it is called, so the environment indexes
it by a resolution generation counter. -/

/-- Outcome of one fallible OS call inside a focus attempt. -/
inductive StepResult where
  | ok
  | fail (e : Nat)
deriving DecidableEq

/-- Outcomes of the three fallible calls of one attempt, in the order the
`try` block performs them: `Manager.press_and_release`,
`AttachThreadInput`, `SetForegroundWindow`. -/
structure AttemptOutcome where
  press : StepResult
  attach : StepResult
  setFg : StepResult
deriving DecidableEq

/-- The Windows facts focus interacts with. -/
structure FocusEnv where
  foregroundWindow : Int
  currentThreadId : Int
  windowOwnerThread : Int → Int
  findWindow : Nat → Int

/-- The mutable fields of a `Process` object that focus touches: the two
cached properties (with a generation counter for `FindWindow`
re-resolution) and the two `__last_window_*` snapshot fields. -/
structure ProcState where
  windowHandleCache : Option Int
  threadIdCache : Option Int
  gen : Nat
  lastWindowHandle : Option Int
  lastWindowThreadId : Option Int
deriving DecidableEq

/-- Observable OS actions performed by focus and restore. -/
inductive Action where
  | pressAndRelease
  | attachThreadInput (idAttach idAttachTo : Int) (attach : Bool)
  | setForegroundWindow (handle : Int)
  | invalidateWindowCache
deriving DecidableEq

/-- The value an access of the `window_handle` cached property yields in
state `st` (cached value, or a fresh `FindWindow` answer). -/
def windowHandleOf (env : FocusEnv) (st : ProcState) : Int :=
  st.windowHandleCache.getD (env.findWindow st.gen)

/-- Accessing `self.window_handle`: memoized `FindWindow(None, window_name)`. -/
def getWindowHandle (env : FocusEnv) (st : ProcState) : Int × ProcState :=
  match st.windowHandleCache with
  | some h => (h, st)
  | none =>
    let h := env.findWindow st.gen
    (h, { st with windowHandleCache := some h, gen := st.gen + 1 })

/-- Accessing `self.thread_id`: memoized
`GetWindowThreadProcessId(self.window_handle)[0]`. -/
def getThreadId (env : FocusEnv) (st : ProcState) : Int × ProcState :=
  match st.threadIdCache with
  | some t => (t, st)
  | none =>
    let hs := getWindowHandle env st
    let t := env.windowOwnerThread hs.1
    (t, { hs.2 with threadIdCache := some t })

/-- One iteration of the `for _ in range(2)` loop body of `focus`: the
`try` block runs `press_and_release('alt')`, then
`AttachThreadInput(self.__last_window_thread_id, self.thread_id, True)`,
then `SetForegroundWindow(self.window_handle)`, stopping at the first
failing call.  Returns the state, the actions attempted, and the raised
error if any. -/
def runAttempt (env : FocusEnv) (st : ProcState) (o : AttemptOutcome) :
    ProcState × List Action × Option Nat :=
  match o.press with
  | .fail e => (st, [.pressAndRelease], some e)
  | .ok =>
    let lastTid := st.lastWindowThreadId.getD 0
    let ts := getThreadId env st
    match o.attach with
    | .fail e => (ts.2, [.pressAndRelease, .attachThreadInput lastTid ts.1 true], some e)
    | .ok =>
      let hs := getWindowHandle env ts.2
      match o.setFg with
      | .fail e =>
        (hs.2, [.pressAndRelease, .attachThreadInput lastTid ts.1 true,
                .setForegroundWindow hs.1], some e)
      | .ok =>
        (hs.2, [.pressAndRelease, .attachThreadInput lastTid ts.1 true,
                .setForegroundWindow hs.1], none)

/-- The first error raised inside one attempt, if any. -/
def attemptErr (o : AttemptOutcome) : Option Nat :=
  match o.press with
  | .fail e => some e
  | .ok =>
    match o.attach with
    | .fail e => some e
    | .ok =>
      match o.setFg with
      | .fail e => some e
      | .ok => none

/-- The assignments at the top of `Process.focus`:
`self.__last_window_handle = win32gui.GetForegroundWindow()` and
`self.__last_window_thread_id = win32api.GetCurrentThreadId()` (the
calling thread's id). -/
def focusEntry (env : FocusEnv) (st : ProcState) : ProcState :=
  { st with lastWindowHandle := some env.foregroundWindow,
            lastWindowThreadId := some env.currentThreadId }

/-- The `self.window_handle` access in `focus`'s comparison, after the two
entry assignments. -/
def focusWs (env : FocusEnv) (st0 : ProcState) : Int × ProcState :=
  getWindowHandle env (focusEntry env st0)

/-- The first iteration of `focus`'s retry loop. -/
def focusA0 (env : FocusEnv) (st0 : ProcState) (o0 : AttemptOutcome) :
    ProcState × List Action × Option Nat :=
  runAttempt env (focusWs env st0).2 o0

/-- The second iteration of `focus`'s retry loop, run on the state left by
the first iteration with the `window_handle` cached property deleted. -/
def focusA1 (env : FocusEnv) (st0 : ProcState) (o0 o1 : AttemptOutcome) :
    ProcState × List Action × Option Nat :=
  runAttempt env { (focusA0 env st0 o0).1 with windowHandleCache := none } o1

/-- Embedding of `Process.focus`: store the current foreground window and
the calling thread's id into the `__last_window_*` fields; if the target
window is already foreground, do nothing; otherwise attempt at most
twice, deleting the `window_handle` cached property after each failure,
and re-raise the second failure. -/
def focus (env : FocusEnv) (st0 : ProcState) (o0 o1 : AttemptOutcome) :
    ProcState × List Action × Except Nat Unit :=
  if env.foregroundWindow = (focusWs env st0).1 then
    ((focusWs env st0).2, [], .ok ())
  else
    match (focusA0 env st0 o0).2.2 with
    | none => ((focusA0 env st0 o0).1, (focusA0 env st0 o0).2.1, .ok ())
    | some _ =>
      match (focusA1 env st0 o0 o1).2.2 with
      | none =>
        ((focusA1 env st0 o0 o1).1,
         (focusA0 env st0 o0).2.1
           ++ Action.invalidateWindowCache :: (focusA1 env st0 o0 o1).2.1,
         .ok ())
      | some e1 =>
        ({ (focusA1 env st0 o0 o1).1 with windowHandleCache := none },
         (focusA0 env st0 o0).2.1
           ++ Action.invalidateWindowCache ::
             ((focusA1 env st0 o0 o1).2.1 ++ [Action.invalidateWindowCache]),
         .error e1)

/-- Embedding of `Process.focus_back_to_last_window`: if the stored
`__last_window_handle` differs from the target window, run
`press_and_release('alt')` (unprotected), detach the thread input
(unprotected), then `SetForegroundWindow(self.__last_window_handle)`
inside `try/except: pass` — only this last call's failure is swallowed. -/
def focus_back_to_last_window (env : FocusEnv) (st : ProcState) (o : AttemptOutcome) :
    ProcState × List Action × Except Nat Unit :=
  let ws := getWindowHandle env st
  if st.lastWindowHandle = some ws.1 then
    (ws.2, [], .ok ())
  else
    match o.press with
    | .fail e => (ws.2, [.pressAndRelease], .error e)
    | .ok =>
      let lastTid := st.lastWindowThreadId.getD 0
      let ts := getThreadId env ws.2
      match o.attach with
      | .fail e => (ts.2, [.pressAndRelease, .attachThreadInput lastTid ts.1 false], .error e)
      | .ok =>
        let lastWh := st.lastWindowHandle.getD 0
        (ts.2, [.pressAndRelease, .attachThreadInput lastTid ts.1 false,
                .setForegroundWindow lastWh], .ok ())

/-! ### Helper lemmas about the focus model -/

theorem getWindowHandle_fst (env : FocusEnv) (st : ProcState) :
    (getWindowHandle env st).1 = windowHandleOf env st := by
  cases h : st.windowHandleCache with
  | none => simp [getWindowHandle, windowHandleOf, h]
  | some v => simp [getWindowHandle, windowHandleOf, h]

theorem runAttempt_err (env : FocusEnv) (st : ProcState) (o : AttemptOutcome) :
    (runAttempt env st o).2.2 = attemptErr o := by
  obtain ⟨p, a, s⟩ := o
  cases p <;> cases a <;> cases s <;> rfl

theorem runAttempt_noInv (env : FocusEnv) (st : ProcState) (o : AttemptOutcome) :
    Action.invalidateWindowCache ∉ (runAttempt env st o).2.1 := by
  obtain ⟨p, a, s⟩ := o
  cases p <;> cases a <;> cases s <;> simp [runAttempt]

theorem getWindowHandle_snd_last (env : FocusEnv) (st : ProcState) :
    (getWindowHandle env st).2.lastWindowHandle = st.lastWindowHandle ∧
    (getWindowHandle env st).2.lastWindowThreadId = st.lastWindowThreadId := by
  cases h : st.windowHandleCache with
  | none => simp [getWindowHandle, h]
  | some v => simp [getWindowHandle, h]

theorem getThreadId_snd_last (env : FocusEnv) (st : ProcState) :
    (getThreadId env st).2.lastWindowHandle = st.lastWindowHandle ∧
    (getThreadId env st).2.lastWindowThreadId = st.lastWindowThreadId := by
  cases h : st.threadIdCache with
  | none =>
    simp only [getThreadId, h]
    exact getWindowHandle_snd_last env st
  | some v => simp [getThreadId, h]

theorem focusWs_fst (env : FocusEnv) (st : ProcState) :
    (focusWs env st).1 = windowHandleOf env st :=
  getWindowHandle_fst env (focusEntry env st)

theorem runAttempt_last (env : FocusEnv) (st : ProcState) (o : AttemptOutcome) :
    (runAttempt env st o).1.lastWindowHandle = st.lastWindowHandle ∧
    (runAttempt env st o).1.lastWindowThreadId = st.lastWindowThreadId := by
  obtain ⟨p, a, s⟩ := o
  have h1 := getThreadId_snd_last env st
  have h2 := getWindowHandle_snd_last env (getThreadId env st).2
  cases p <;> cases a <;> cases s <;>
    simp_all [runAttempt]

theorem focusA0_err (env : FocusEnv) (st : ProcState) (o0 : AttemptOutcome) :
    (focusA0 env st o0).2.2 = attemptErr o0 :=
  runAttempt_err env (focusWs env st).2 o0

theorem focusA1_err (env : FocusEnv) (st : ProcState) (o0 o1 : AttemptOutcome) :
    (focusA1 env st o0 o1).2.2 = attemptErr o1 :=
  runAttempt_err env { (focusA0 env st o0).1 with windowHandleCache := none } o1

theorem focus_eq_noop (env : FocusEnv) (st : ProcState) (o0 o1 : AttemptOutcome)
    (h : env.foregroundWindow = windowHandleOf env st) :
    focus env st o0 o1 = ((focusWs env st).2, [], .ok ()) := by
  simp only [focus]
  rw [if_pos (h.trans (focusWs_fst env st).symm)]

theorem focus_eq_first_ok (env : FocusEnv) (st : ProcState) (o0 o1 : AttemptOutcome)
    (h : env.foregroundWindow ≠ windowHandleOf env st) (h0 : attemptErr o0 = none) :
    focus env st o0 o1 = ((focusA0 env st o0).1, (focusA0 env st o0).2.1, .ok ()) := by
  simp only [focus]
  rw [if_neg (fun hh => h (hh.trans (focusWs_fst env st)))]
  rw [focusA0_err, h0]

theorem focus_eq_retry_ok (env : FocusEnv) (st : ProcState) (o0 o1 : AttemptOutcome)
    (e0 : Nat) (h : env.foregroundWindow ≠ windowHandleOf env st)
    (h0 : attemptErr o0 = some e0) (h1 : attemptErr o1 = none) :
    focus env st o0 o1 =
      ((focusA1 env st o0 o1).1,
       (focusA0 env st o0).2.1
         ++ Action.invalidateWindowCache :: (focusA1 env st o0 o1).2.1,
       .ok ()) := by
  simp only [focus]
  rw [if_neg (fun hh => h (hh.trans (focusWs_fst env st)))]
  rw [focusA0_err, h0]
  dsimp only
  rw [focusA1_err, h1]

theorem focus_eq_retry_err (env : FocusEnv) (st : ProcState) (o0 o1 : AttemptOutcome)
    (e0 e1 : Nat) (h : env.foregroundWindow ≠ windowHandleOf env st)
    (h0 : attemptErr o0 = some e0) (h1 : attemptErr o1 = some e1) :
    focus env st o0 o1 =
      ({ (focusA1 env st o0 o1).1 with windowHandleCache := none },
       (focusA0 env st o0).2.1
         ++ Action.invalidateWindowCache ::
           ((focusA1 env st o0 o1).2.1 ++ [Action.invalidateWindowCache]),
       .error e1) := by
  simp only [focus]
  rw [if_neg (fun hh => h (hh.trans (focusWs_fst env st)))]
  rw [focusA0_err, h0]
  dsimp only
  rw [focusA1_err, h1]

theorem focus_fst_last (env : FocusEnv) (st : ProcState) (o0 o1 : AttemptOutcome) :
    (focus env st o0 o1).1.lastWindowHandle = some env.foregroundWindow ∧
    (focus env st o0 o1).1.lastWindowThreadId = some env.currentThreadId := by
  by_cases hc : env.foregroundWindow = windowHandleOf env st
  · rw [focus_eq_noop env st o0 o1 hc]
    exact ⟨(getWindowHandle_snd_last env (focusEntry env st)).1,
           (getWindowHandle_snd_last env (focusEntry env st)).2⟩
  · cases h0 : attemptErr o0 with
    | none =>
      rw [focus_eq_first_ok env st o0 o1 hc h0]
      have hA := runAttempt_last env (focusWs env st).2 o0
      have hW := getWindowHandle_snd_last env (focusEntry env st)
      exact ⟨hA.1.trans hW.1, hA.2.trans hW.2⟩
    | some e0 =>
      have hA1 := runAttempt_last env
        { (focusA0 env st o0).1 with windowHandleCache := none } o1
      have hA0 := runAttempt_last env (focusWs env st).2 o0
      have hW := getWindowHandle_snd_last env (focusEntry env st)
      cases h1 : attemptErr o1 with
      | none =>
        rw [focus_eq_retry_ok env st o0 o1 e0 hc h0 h1]
        exact ⟨hA1.1.trans (hA0.1.trans hW.1), hA1.2.trans (hA0.2.trans hW.2)⟩
      | some e1 =>
        rw [focus_eq_retry_err env st o0 o1 e0 e1 hc h0 h1]
        exact ⟨hA1.1.trans (hA0.1.trans hW.1), hA1.2.trans (hA0.2.trans hW.2)⟩

theorem focus_back_trace_consumes (env : FocusEnv) (st : ProcState) (o : AttemptOutcome)
    (l t : Int) (hl : st.lastWindowHandle = some l) (ht : st.lastWindowThreadId = some t)
    (hb : some l ≠ some (windowHandleOf env st)) (hp : o.press = .ok) (ha : o.attach = .ok) :
    (focus_back_to_last_window env st o).2.1 =
      [Action.pressAndRelease,
       Action.attachThreadInput t (getThreadId env (getWindowHandle env st).2).1 false,
       Action.setForegroundWindow l] := by
  have hne : ¬ st.lastWindowHandle = some (getWindowHandle env st).1 := by
    rw [hl, getWindowHandle_fst]
    exact hb
  simp only [focus_back_to_last_window]
  rw [if_neg hne, hp]
  dsimp only
  rw [ha]
  dsimp only
  rw [hl, ht]
  rfl

end FishBot

namespace FishBot

/-! ### Claim theorems -/

/-- C1: For every starting address and every non-empty offset chain of
length N with all reads succeeding, `read_memory` performs exactly N
dependent reads applied strictly left-to-right: at each step it reads an
unsigned value (at the width the `byte` flag requests) at the current
address and sets the next current address to (value read) + (that step's
offset); the returned pair is (the last computed current address, the
value read in the final step). `Resolves` states exactly this step
semantics, and the returned trace lists the N addresses read in order. -/
theorem read_memory_chain_resolves (env : MemEnv) (byte : Bool) (f : Int → Nat)
    (hrd : ∀ a, env.readFn byte a = some (f a))
    (os : List Offset) (offs : List Int) (hn : normalizeChain os = some offs)
    (hne : os ≠ []) (address : Int) :
    ∃ tr r, read_memory env address (some os) byte = some (r.1, r.2, tr) ∧
      Resolves f address offs tr r ∧ tr.length = os.length := by
  obtain ⟨tr, r, hc, hres⟩ :=
    readChain_resolves (env.readFn byte) f hrd os offs hn hne address 0
  refine ⟨tr, r, ?_, hres, ?_⟩
  · rw [read_memory_of_ne_nil env byte address hne, hc]
  · rw [hres.length_eq, normalizeChain_length hn]

/-- Witness for C1 at a concrete two-step chain mixing an integer offset
with a hexadecimal string offset. -/
theorem read_memory_chain_resolves_witness :
    ∃ tr r,
      read_memory ⟨fun _ => some 1, fun a => some a.toNat⟩ 100
          (some [Offset.int 4, Offset.str ("0x10")]) false = some (r.1, r.2, tr) ∧
      Resolves (fun a => a.toNat) 100 [4, 16] tr r ∧
      tr.length = [Offset.int 4, Offset.str ("0x10")].length :=
  read_memory_chain_resolves ⟨fun _ => some 1, fun a => some a.toNat⟩ false
    (fun a => a.toNat) (fun _ => rfl) [Offset.int 4, Offset.str ("0x10")] [4, 16]
    rfl (List.cons_ne_nil _ _) 100

/-- C2: the code does NOT surface read failures. With a memory in which
every `ReadProcessMemory` call fails, the embedded `read_memory` still
returns successfully, handing back the untouched zero buffer as the value
at the requested address instead of failing with an error naming it. -/
theorem read_memory_silent_failure :
    MemEnv.readFn ⟨fun _ => none, fun _ => none⟩ false 4096 = none ∧
    read_memory ⟨fun _ => none, fun _ => none⟩ 4096 none false = some (4096, 0, [4096]) :=
  ⟨rfl, rfl⟩

/-- C3: a string offset parsed as hexadecimal and an integer offset of the
same numeric value produce identical resolution results from
`read_memory`, at any chain position, for every starting address and
width. -/
theorem read_memory_hex_string_offset (env : MemEnv) (byte : Bool) (address : Int)
    (pre post : List Offset) (s : String) (n : Int) (h : pyIntHex s = some n) :
    read_memory env address (some (pre ++ Offset.str s :: post)) byte =
      read_memory env address (some (pre ++ Offset.int n :: post)) byte := by
  have hne1 : pre ++ Offset.str s :: post ≠ [] := by simp
  have hne2 : pre ++ Offset.int n :: post ≠ [] := by simp
  rw [read_memory_of_ne_nil env byte address hne1,
    read_memory_of_ne_nil env byte address hne2]
  apply readChain_congr
  simp [Offset.normalize, h]

/-- Witness for C3: the decimal offset 16 and the hexadecimal string
offset "0x10" resolve identically. -/
theorem read_memory_hex_string_offset_witness :
    read_memory ⟨fun _ => some 1, fun _ => some 200⟩ 100
        (some [Offset.str ("0x10")]) false =
      read_memory ⟨fun _ => some 1, fun _ => some 200⟩ 100
        (some [Offset.int 16]) false :=
  read_memory_hex_string_offset _ false 100 [] [] ("0x10") 16 rfl

/-- C10: an empty offset chain behaves identically to no chain at all
(Python's `if offsets:` treats both as falsy): exactly one read is
performed at the given address and the returned pair is that address with
the value read there. -/
theorem read_memory_empty_chain (env : MemEnv) (byte : Bool) (address : Int) :
    read_memory env address (some []) byte = read_memory env address none byte ∧
    (∀ v, env.readFn byte address = some v →
      read_memory env address (some []) byte = some (address, v, [address])) := by
  constructor
  · rfl
  · intro v hv
    simp [read_memory, hv]

/-- Witness for C10 at a concrete memory. -/
theorem read_memory_empty_chain_witness :
    read_memory ⟨fun _ => some 7, fun _ => some 42⟩ 5 (some []) false =
        read_memory ⟨fun _ => some 7, fun _ => some 42⟩ 5 none false ∧
    read_memory ⟨fun _ => some 7, fun _ => some 42⟩ 5 (some []) false = some (5, 42, [5]) :=
  ⟨(read_memory_empty_chain ⟨fun _ => some 7, fun _ => some 42⟩ false 5).1,
   (read_memory_empty_chain ⟨fun _ => some 7, fun _ => some 42⟩ false 5).2 42 rfl⟩

/-- C4: `get_by_name` returns the identity built from the first module,
in enumeration order over openable non-sentinel processes and their
modules, whose file path case-insensitively contains the search string as
a substring; and it raises the error message carrying the search string
exactly when the whole candidate list has no match. -/
theorem get_by_name_first_match (process_name window_name : String)
    (procs : List ProcEntry) :
    get_by_name process_name window_name procs =
      match (candidates procs).find? (fun pm => moduleMatches process_name pm.2) with
      | some pm => .ok ⟨pm.1, process_name, window_name, pm.2.baseAddress⟩
      | none => .error (process_name ++ " could not be found.") := by
  induction procs with
  | nil => rfl
  | cons p rest ih =>
    by_cases h1 : p.pid = -1
    · have hc : candidates (p :: rest) = candidates rest := by
        simp [candidates, List.filter_cons, h1]
      simp only [get_by_name, h1, if_true, hc]
      exact ih
    · cases h2 : p.openable with
      | false =>
        have hc : candidates (p :: rest) = candidates rest := by
          simp [candidates, List.filter_cons, h1, h2]
        simp only [get_by_name, h1, if_false, h2, hc]
        simpa using ih
      | true =>
        have hc : candidates (p :: rest) =
            p.modules.map (fun m => (p.pid, m)) ++ candidates rest := by
          simp [candidates, List.filter_cons, h1, h2]
        simp only [get_by_name, h1, if_false, h2, hc, findModule_eq_find?]
        rw [List.find?_append, List.find?_map]
        cases hf : p.modules.find? (moduleMatches process_name) with
        | some m =>
          have : (List.find? ((fun pm : Int × ModuleInfo =>
              moduleMatches process_name pm.2) ∘ fun m => (p.pid, m)) p.modules)
              = some m := by
            simpa [Function.comp] using hf
          simp [this]
        | none =>
          have : (List.find? ((fun pm : Int × ModuleInfo =>
              moduleMatches process_name pm.2) ∘ fun m => (p.pid, m)) p.modules)
              = none := by
            simpa [Function.comp] using hf
          simp only [this, Option.map_none, Option.none_or]
          simpa using ih

/-- Whether a kill outcome is an exception other than the two the code
catches. -/
def KillOutcome.isOther : KillOutcome → Bool
  | .other _ => true
  | _ => false

theorem kill_by_name_go_swallows (folded : List String) :
    ∀ procs : List RunningProc,
      (∀ p ∈ procs, killMatches folded p = true → p.outcome.isOther = false) →
      kill_by_name_go folded procs =
        ((procs.filter (killMatches folded)).map RunningProc.name, none) := by
  intro procs
  induction procs with
  | nil => intro _; rfl
  | cons p rest ih =>
    intro h
    have hrest := fun q hq => h q (List.mem_cons_of_mem p hq)
    cases hm : killMatches folded p with
    | false => simp [kill_by_name_go, hm, List.filter_cons, ih hrest]
    | true =>
      have hp := h p (List.mem_cons_self p rest) hm
      cases ho : p.outcome with
      | other e => rw [ho] at hp; simp [KillOutcome.isOther] at hp
      | ok => simp [kill_by_name_go, hm, ho, List.filter_cons, ih hrest]
      | accessDenied => simp [kill_by_name_go, hm, ho, List.filter_cons, ih hrest]
      | noSuchProcess => simp [kill_by_name_go, hm, ho, List.filter_cons, ih hrest]

/-- C5: when every matching process's `kill()` either succeeds or fails
with one of the two caught exceptions (`AccessDenied`, `NoSuchProcess`),
`kill_by_name` raises nothing (second component `none`) and attempts every
process matching any requested name, in iteration order — the swallowed
per-target failures never prevent the remaining attempts. -/
theorem kill_by_name_never_raises (names : List String) (procs : List RunningProc)
    (h : ∀ p ∈ procs, killMatches (names.map caseFold) p = true →
        p.outcome.isOther = false) :
    kill_by_name names procs =
      ((procs.filter (killMatches (names.map caseFold))).map RunningProc.name, none) :=
  kill_by_name_go_swallows (names.map caseFold) procs h

/-- Witness for C5: one access-denied target, one already-gone target and
one killable target are all attempted; an unrelated process name is not;
nothing is raised. -/
theorem kill_by_name_never_raises_witness :
    kill_by_name [("Game.exe")]
        [⟨("game.EXE"), .accessDenied⟩, ⟨("other.exe"), .other 1⟩,
         ⟨("GAME.exe"), .noSuchProcess⟩, ⟨("Game.exe"), .ok⟩]
      = ([("game.EXE"), ("GAME.exe"), ("Game.exe")], none) :=
  (kill_by_name_never_raises [("Game.exe")]
      [⟨("game.EXE"), .accessDenied⟩, ⟨("other.exe"), .other 1⟩,
       ⟨("GAME.exe"), .noSuchProcess⟩, ⟨("Game.exe"), .ok⟩]
      (by decide)).trans (by decide)

/-- C6: `focus()` is idempotent. When the target window is already the
foreground window the call performs no OS action at all: no
`SetForegroundWindow` transition, no `AttachThreadInput`, and no
precondition keypress, and it returns successfully. -/
theorem focus_already_foreground (env : FocusEnv) (st : ProcState)
    (o0 o1 : AttemptOutcome) (h : env.foregroundWindow = windowHandleOf env st) :
    (focus env st o0 o1).2.1 = [] ∧
    (focus env st o0 o1).2.2 = .ok () ∧
    (∀ w, Action.setForegroundWindow w ∉ (focus env st o0 o1).2.1) ∧
    (∀ a b c, Action.attachThreadInput a b c ∉ (focus env st o0 o1).2.1) ∧
    Action.pressAndRelease ∉ (focus env st o0 o1).2.1 := by
  simp only [focus]
  rw [if_pos (h.trans (focusWs_fst env st).symm)]
  simp

/-- Witness for C6: a state whose cached window handle equals the
foreground window produces an empty action trace. -/
theorem focus_already_foreground_witness :
    (focus ⟨5, 7, fun _ => 3, fun _ => 5⟩ ⟨some 5, none, 0, none, none⟩
        ⟨.ok, .ok, .ok⟩ ⟨.ok, .ok, .ok⟩).2.1 = [] ∧
    (focus ⟨5, 7, fun _ => 3, fun _ => 5⟩ ⟨some 5, none, 0, none, none⟩
        ⟨.ok, .ok, .ok⟩ ⟨.ok, .ok, .ok⟩).2.2 = .ok () ∧
    (∀ w, Action.setForegroundWindow w ∉
      (focus ⟨5, 7, fun _ => 3, fun _ => 5⟩ ⟨some 5, none, 0, none, none⟩
        ⟨.ok, .ok, .ok⟩ ⟨.ok, .ok, .ok⟩).2.1) ∧
    (∀ a b c, Action.attachThreadInput a b c ∉
      (focus ⟨5, 7, fun _ => 3, fun _ => 5⟩ ⟨some 5, none, 0, none, none⟩
        ⟨.ok, .ok, .ok⟩ ⟨.ok, .ok, .ok⟩).2.1) ∧
    Action.pressAndRelease ∉
      (focus ⟨5, 7, fun _ => 3, fun _ => 5⟩ ⟨some 5, none, 0, none, none⟩
        ⟨.ok, .ok, .ok⟩ ⟨.ok, .ok, .ok⟩).2.1 :=
  focus_already_foreground ⟨5, 7, fun _ => 3, fun _ => 5⟩ ⟨some 5, none, 0, none, none⟩
    ⟨.ok, .ok, .ok⟩ ⟨.ok, .ok, .ok⟩ rfl

/-- C7: when the first focus attempt fails, the cached window handle is
invalidated and the attempt is retried exactly once (`focusA1` is, by
definition, the retry run on the first attempt's state with the
`window_handle` cache deleted, forcing `FindWindow` re-resolution): the
whole action trace is the first attempt's actions, one cache
invalidation, then the retry's actions (plus the final invalidation when
the retry also fails, in which case the retry's OS error is re-raised to
the caller).  Neither attempt invalidates the cache internally, and when
no attempt fails — or no attempt runs at all — no invalidation ever
happens. -/
theorem focus_failure_retries_once (env : FocusEnv) (st : ProcState)
    (o0 o1 : AttemptOutcome) :
    (attemptErr o0 = none → Action.invalidateWindowCache ∉ (focus env st o0 o1).2.1) ∧
    (env.foregroundWindow = windowHandleOf env st → (focus env st o0 o1).2.1 = []) ∧
    (env.foregroundWindow ≠ windowHandleOf env st → ∀ e0, attemptErr o0 = some e0 →
      Action.invalidateWindowCache ∉ (focusA0 env st o0).2.1 ∧
      Action.invalidateWindowCache ∉ (focusA1 env st o0 o1).2.1 ∧
      (attemptErr o1 = none →
        (focus env st o0 o1).2.1 =
          (focusA0 env st o0).2.1
            ++ Action.invalidateWindowCache :: (focusA1 env st o0 o1).2.1 ∧
        (focus env st o0 o1).2.2 = .ok ()) ∧
      (∀ e1, attemptErr o1 = some e1 →
        (focus env st o0 o1).2.1 =
          (focusA0 env st o0).2.1
            ++ Action.invalidateWindowCache ::
              ((focusA1 env st o0 o1).2.1 ++ [Action.invalidateWindowCache]) ∧
        (focus env st o0 o1).2.2 = .error e1)) := by
  refine ⟨?_, ?_, ?_⟩
  · intro h0
    by_cases hc : env.foregroundWindow = windowHandleOf env st
    · rw [focus_eq_noop env st o0 o1 hc]
      simp
    · rw [focus_eq_first_ok env st o0 o1 hc h0]
      exact runAttempt_noInv env (focusWs env st).2 o0
  · intro hc
    rw [focus_eq_noop env st o0 o1 hc]
  · intro hc e0 h0
    refine ⟨runAttempt_noInv env (focusWs env st).2 o0,
      runAttempt_noInv env { (focusA0 env st o0).1 with windowHandleCache := none } o1,
      ?_, ?_⟩
    · intro h1
      rw [focus_eq_retry_ok env st o0 o1 e0 hc h0 h1]
      exact ⟨rfl, rfl⟩
    · intro e1 h1
      rw [focus_eq_retry_err env st o0 o1 e0 e1 hc h0 h1]
      exact ⟨rfl, rfl⟩

/-- Witness for C7: a double failure at a concrete environment yields the
retry's error and the trace with its two invalidation points. -/
theorem focus_failure_retries_once_witness :
    (focus ⟨0, 7, fun _ => 3, fun _ => 1⟩ ⟨none, none, 0, none, none⟩
        ⟨.fail 3, .ok, .ok⟩ ⟨.ok, .ok, .fail 9⟩).2.2 = .error 9 ∧
    (focus ⟨0, 7, fun _ => 3, fun _ => 1⟩ ⟨none, none, 0, none, none⟩
        ⟨.fail 3, .ok, .ok⟩ ⟨.ok, .ok, .fail 9⟩).2.1 =
      (focusA0 ⟨0, 7, fun _ => 3, fun _ => 1⟩ ⟨none, none, 0, none, none⟩
          ⟨.fail 3, .ok, .ok⟩).2.1
        ++ Action.invalidateWindowCache ::
          ((focusA1 ⟨0, 7, fun _ => 3, fun _ => 1⟩ ⟨none, none, 0, none, none⟩
              ⟨.fail 3, .ok, .ok⟩ ⟨.ok, .ok, .fail 9⟩).2.1
            ++ [Action.invalidateWindowCache]) := by
  have h := (focus_failure_retries_once ⟨0, 7, fun _ => 3, fun _ => 1⟩
      ⟨none, none, 0, none, none⟩ ⟨.fail 3, .ok, .ok⟩ ⟨.ok, .ok, .fail 9⟩).2.2
      (by decide) 3 rfl
  exact ⟨(h.2.2.2 9 rfl).2, (h.2.2.2 9 rfl).1⟩

/-- C8 counterexample: a failing precondition keypress during restore is
NOT swallowed — `focus_back_to_last_window` re-raises it (error 7) instead
of returning successfully, refuting "any failure during the restore
operation is swallowed". -/
theorem focus_back_press_failure_propagates :
    (focus_back_to_last_window ⟨0, 7, fun _ => 3, fun _ => 1⟩
        ⟨some 1, some 3, 1, some 0, some 7⟩ ⟨.fail 7, .ok, .ok⟩).2.2 = .error 7 ∧
    (focus_back_to_last_window ⟨0, 7, fun _ => 3, fun _ => 1⟩
        ⟨some 1, some 3, 1, some 0, some 7⟩ ⟨.fail 7, .ok, .ok⟩).2.2 ≠ .ok () := by
  refine ⟨rfl, ?_⟩
  intro hh
  rw [show (focus_back_to_last_window ⟨0, 7, fun _ => 3, fun _ => 1⟩
      ⟨some 1, some 3, 1, some 0, some 7⟩ ⟨.fail 7, .ok, .ok⟩).2.2
      = Except.error 7 from rfl] at hh
  exact Except.noConfusion hh

/-- C8 amended: only a failure of the final `SetForegroundWindow` restore
call is swallowed by `focus_back_to_last_window` (and the no-op branch
never fails); a failure of the precondition keypress or of the
thread-input detach propagates to the caller. -/
theorem focus_back_swallows_only_setfg (env : FocusEnv) (st : ProcState)
    (o : AttemptOutcome) :
    (o.press = .ok → o.attach = .ok →
      (focus_back_to_last_window env st o).2.2 = .ok ()) ∧
    (st.lastWindowHandle = some (windowHandleOf env st) →
      (focus_back_to_last_window env st o).2.2 = .ok ()) ∧
    (∀ e, st.lastWindowHandle ≠ some (windowHandleOf env st) → o.press = .fail e →
      (focus_back_to_last_window env st o).2.2 = .error e) ∧
    (∀ e, st.lastWindowHandle ≠ some (windowHandleOf env st) → o.press = .ok →
      o.attach = .fail e →
      (focus_back_to_last_window env st o).2.2 = .error e) := by
  obtain ⟨p, a, s⟩ := o
  have hfst := getWindowHandle_fst env st
  by_cases hb : st.lastWindowHandle = some (windowHandleOf env st) <;>
    cases p <;> cases a <;> cases s <;>
      simp_all [focus_back_to_last_window]

/-- Witness for C8 amended: a failing `SetForegroundWindow` during restore
is swallowed at a concrete state, and failing keypress / detach calls
propagate their errors. -/
theorem focus_back_swallows_only_setfg_witness :
    (focus_back_to_last_window ⟨0, 7, fun _ => 3, fun _ => 1⟩
        ⟨some 1, some 3, 1, some 0, some 7⟩ ⟨.ok, .ok, .fail 5⟩).2.2 = .ok () ∧
    (focus_back_to_last_window ⟨0, 7, fun _ => 3, fun _ => 1⟩
        ⟨some 1, some 3, 1, some 0, some 7⟩ ⟨.ok, .fail 6, .ok⟩).2.2 = .error 6 :=
  ⟨(focus_back_swallows_only_setfg ⟨0, 7, fun _ => 3, fun _ => 1⟩
      ⟨some 1, some 3, 1, some 0, some 7⟩ ⟨.ok, .ok, .fail 5⟩).1 rfl rfl,
   (focus_back_swallows_only_setfg ⟨0, 7, fun _ => 3, fun _ => 1⟩
      ⟨some 1, some 3, 1, some 0, some 7⟩ ⟨.ok, .fail 6, .ok⟩).2.2.2 6 (by decide) rfl rfl⟩

/-- C9 counterexample: `focus` does not capture the owning thread id of
the previous foreground window.  In an environment whose foreground
window (handle 10) is owned by thread 5 while the calling thread is 7,
the stored snapshot thread id is 7, not 5. -/
theorem focus_snapshot_thread_counterexample :
    (focus ⟨10, 7, fun _ => 5, fun _ => 99⟩ ⟨none, none, 0, none, none⟩
        ⟨.ok, .ok, .ok⟩ ⟨.ok, .ok, .ok⟩).1.lastWindowThreadId = some 7 ∧
    (⟨10, 7, fun _ => 5, fun _ => 99⟩ : FocusEnv).windowOwnerThread
        (⟨10, 7, fun _ => 5, fun _ => 99⟩ : FocusEnv).foregroundWindow = 5 ∧
    (focus ⟨10, 7, fun _ => 5, fun _ => 99⟩ ⟨none, none, 0, none, none⟩
        ⟨.ok, .ok, .ok⟩ ⟨.ok, .ok, .ok⟩).1.lastWindowThreadId ≠
      some ((⟨10, 7, fun _ => 5, fun _ => 99⟩ : FocusEnv).windowOwnerThread
        (⟨10, 7, fun _ => 5, fun _ => 99⟩ : FocusEnv).foregroundWindow) := by
  refine ⟨rfl, rfl, ?_⟩
  intro hh
  rw [show (focus ⟨10, 7, fun _ => 5, fun _ => 99⟩ ⟨none, none, 0, none, none⟩
      ⟨.ok, .ok, .ok⟩ ⟨.ok, .ok, .ok⟩).1.lastWindowThreadId = some 7 from rfl] at hh
  simp at hh

/-- C9 amended: every call to `focus()` begins by storing the pair
(previous foreground window handle, the CALLING thread's id as returned
by `GetCurrentThreadId` — not the owning thread of the previous
foreground window) into the `__last_window_*` fields, and a subsequent
`focus_back_to_last_window` on the resulting state consumes exactly this
stored pair: the detach passes the stored thread id and the restore
targets the stored window handle. -/
theorem focus_snapshot (env : FocusEnv) (st : ProcState) (o0 o1 : AttemptOutcome) :
    (focus env st o0 o1).1.lastWindowHandle = some env.foregroundWindow ∧
    (focus env st o0 o1).1.lastWindowThreadId = some env.currentThreadId ∧
    (∀ (o : AttemptOutcome) (l t : Int),
      (focus env st o0 o1).1.lastWindowHandle = some l →
      (focus env st o0 o1).1.lastWindowThreadId = some t →
      some l ≠ some (windowHandleOf env (focus env st o0 o1).1) →
      o.press = .ok → o.attach = .ok →
      (focus_back_to_last_window env (focus env st o0 o1).1 o).2.1 =
        [Action.pressAndRelease,
         Action.attachThreadInput t
           (getThreadId env (getWindowHandle env (focus env st o0 o1).1).2).1 false,
         Action.setForegroundWindow l]) :=
  ⟨(focus_fst_last env st o0 o1).1, (focus_fst_last env st o0 o1).2,
   fun o l t hl ht hb hp ha =>
     focus_back_trace_consumes env (focus env st o0 o1).1 o l t hl ht hb hp ha⟩

/-- Witness for C9 amended: at a concrete environment the snapshot pair
(10, 7) is stored and the restore's detach / set-foreground actions use
exactly those stored values. -/
theorem focus_snapshot_witness :
    (focus ⟨10, 7, fun _ => 5, fun _ => 99⟩ ⟨none, none, 0, none, none⟩
        ⟨.ok, .ok, .ok⟩ ⟨.ok, .ok, .ok⟩).1.lastWindowHandle = some 10 ∧
    (focus ⟨10, 7, fun _ => 5, fun _ => 99⟩ ⟨none, none, 0, none, none⟩
        ⟨.ok, .ok, .ok⟩ ⟨.ok, .ok, .ok⟩).1.lastWindowThreadId = some 7 ∧
    (focus_back_to_last_window ⟨10, 7, fun _ => 5, fun _ => 99⟩
        (focus ⟨10, 7, fun _ => 5, fun _ => 99⟩ ⟨none, none, 0, none, none⟩
          ⟨.ok, .ok, .ok⟩ ⟨.ok, .ok, .ok⟩).1 ⟨.ok, .ok, .ok⟩).2.1 =
      [Action.pressAndRelease,
       Action.attachThreadInput 7
         (getThreadId ⟨10, 7, fun _ => 5, fun _ => 99⟩
           (getWindowHandle ⟨10, 7, fun _ => 5, fun _ => 99⟩
             (focus ⟨10, 7, fun _ => 5, fun _ => 99⟩ ⟨none, none, 0, none, none⟩
               ⟨.ok, .ok, .ok⟩ ⟨.ok, .ok, .ok⟩).1).2).1 false,
       Action.setForegroundWindow 10] := by
  have h := focus_snapshot ⟨10, 7, fun _ => 5, fun _ => 99⟩ ⟨none, none, 0, none, none⟩
    ⟨.ok, .ok, .ok⟩ ⟨.ok, .ok, .ok⟩
  exact ⟨h.1, h.2.1, h.2.2 ⟨.ok, .ok, .ok⟩ 10 7 h.1 h.2.1 (by decide) rfl rfl⟩

end FishBot
